import Mathlib

/-!
Shallow embedding of the tic-tac-toe core of `src/src/lib.rs`
(`Piece`, `Tile`, `Tiles`, `Winner`, `MoveError`, `Game` with
`new`, `make_move`, `update_winner`, `is_finished`, and the free
function `parse_move`), together with spec-side formulations of the
outcome-evaluation algorithm, and theorems settling the specification
claims.

Modelling conventions:
* the Rust `make_move` mutates `self` and returns `Result<(), MoveError>`;
  here `make_move` is a pure function returning the successor state on
  success, so "error returned, state unchanged" is "error returned and
  no successor state is produced";
* a Rust panic (the `assert!` in `update_winner` is the only panic
  point reachable from `make_move`) is modelled as `none` in the outer
  `Option`: `make_move : Game → Nat → Nat → Option (Except MoveError Game)`
  where `none` means "panicked";
* `usize` coordinates are `Nat`; the board is a total function
  `Fin 3 → Fin 3 → Tile`, mirroring `[[Tile; BOARD_SIZE]; BOARD_SIZE]`
  with `BOARD_SIZE = 3`; the query methods `winner()`, `current_piece()`
  and `tiles()` return the corresponding fields, so the Lean field
  accessors model them directly;
* the token handed to `parse_move` is the list of characters of the
  Rust `&str`; Rust's `input.len()` is its UTF-8 byte length and the
  slices `&input[0..1]`, `&input[1..2]` are byte slices, so a token of
  byte length 2 is either two one-byte characters (whose one-byte
  slices compare like the characters themselves) or one two-byte
  character, for which `&input[0..1]` falls inside a character and
  Rust panics; that panic is modelled as `none` in an outer `Option`,
  exactly as for `make_move`.
-/

namespace ConnectRusty

/-- Rust `enum Piece { X, O }` from `src/src/lib.rs`. -/
inductive Piece where
  | X
  | O
deriving DecidableEq, Fintype

/-- Rust `Piece::other`: returns the opposite piece. -/
def Piece.other : Piece → Piece
  | .X => .O
  | .O => .X

/-- Rust `type Tile = Option<Piece>;`. -/
abbrev Tile := Option Piece

/-- Rust `type Tiles = [[Tile; BOARD_SIZE]; BOARD_SIZE];` with
`BOARD_SIZE = 3`, modelled as a total function on indices. -/
abbrev Tiles := Fin 3 → Fin 3 → Tile

/-- Rust `self.tiles.len()`: the outer array of `[[Tile; 3]; 3]` has
length 3. -/
def Tiles.rows (_ : Tiles) : Nat := 3

/-- Rust `self.tiles[0].len()`: each row of `[[Tile; 3]; 3]` has
length 3. -/
def Tiles.cols (_ : Tiles) : Nat := 3

/-- Rust `enum Winner { X, O, Tie }`. -/
inductive Winner where
  | X
  | O
  | Tie
deriving DecidableEq, Fintype

/-- Rust `enum MoveError { GameAlreadyOver, InvalidPosition{row,col},
TileNotEmpty{other_piece,row,col} }`. -/
inductive MoveError where
  | GameAlreadyOver
  | InvalidPosition (row col : Nat)
  | TileNotEmpty (other_piece : Piece) (row col : Nat)
deriving DecidableEq

/-- Rust `struct Game { tiles, current_piece, winner }`. The public
query methods `tiles()`, `current_piece()` and `winner()` return these
fields, so the field accessors model them. -/
structure Game where
  tiles : Tiles
  current_piece : Piece
  winner : Option Winner
deriving DecidableEq

instance {α β : Type} [DecidableEq α] [DecidableEq β] : DecidableEq (Except α β) := fun x y =>
  match x, y with
  | .error a, .error b =>
    if h : a = b then isTrue (by rw [h]) else isFalse (by simp [h])
  | .ok a, .ok b =>
    if h : a = b then isTrue (by rw [h]) else isFalse (by simp [h])
  | .error _, .ok _ => isFalse (by simp)
  | .ok _, .error _ => isFalse (by simp)

/-- Rust `Game::new()`: empty board, `X` to move, no winner. -/
def Game.new : Game where
  tiles := fun _ _ => none
  current_piece := .X
  winner := none

/-- Rust `Game::is_finished()`: the game is finished iff there is a
winner. -/
def Game.is_finished (g : Game) : Bool :=
  g.winner.isSome

/-- Rust inner function `check_winner` of `Game::update_winner`: a slice
of three tiles yields a winner iff all three are equal, keyed on the
common piece. -/
def check_winner (t : Tile × Tile × Tile) : Option Winner :=
  if t.1 = t.2.1 ∧ t.2.1 = t.2.2 then
    match t.1 with
    | some .X => some .X
    | some .O => some .O
    | none => none
  else
    none

/-- Rust `self.tiles.iter().all(|row| row.iter().all(|tile| tile.is_some()))`. -/
def boardFull (tiles : Tiles) : Bool :=
  (List.finRange 3).all fun i => (List.finRange 3).all fun j => (tiles i j).isSome

/-- Rust `Game::update_winner(row, col)`. The caller (`make_move`)
guarantees `row, col < 3`, so the coordinates are `Fin 3` here. The
Rust `assert!` on the board dimensions is modelled as the guard of the
outer `if`; its failure (a panic) is `none`. -/
def Game.update_winner (g : Game) (row col : Fin 3) : Option Game :=
  let rows := Tiles.rows g.tiles
  let cols := Tiles.cols g.tiles
  let tiles_row : Tile × Tile × Tile := (g.tiles row 0, g.tiles row 1, g.tiles row 2)
  let tiles_col : Tile × Tile × Tile := (g.tiles 0 col, g.tiles 1 col, g.tiles 2 col)
  if rows = 3 ∧ cols = 3 then
    let tiles_diagonal_1 : Tile × Tile × Tile :=
      if (row : Nat) = (col : Nat) then
        (g.tiles 0 0, g.tiles 1 1, g.tiles 2 2)
      else
        (none, none, none)
    let tiles_diagonal_2 : Tile × Tile × Tile :=
      if rows - (row : Nat) - 1 = (col : Nat) then
        (g.tiles 0 2, g.tiles 1 1, g.tiles 2 0)
      else
        (none, none, none)
    let w :=
      ((((g.winner.orElse
          fun _ => check_winner tiles_row).orElse
          fun _ => check_winner tiles_col).orElse
          fun _ => check_winner tiles_diagonal_1).orElse
          fun _ => check_winner tiles_diagonal_2).orElse
          fun _ => if boardFull g.tiles then some .Tie else none
    some { g with winner := w }
  else
    none

/-- Rust assignment `self.tiles[row][col] = Some(piece)`. -/
def placeTile (t : Tiles) (r c : Fin 3) (p : Piece) : Tiles :=
  fun i j => if i = r ∧ j = c then some p else t i j

/-- Rust `Game::make_move(row, col)`. The outer `Option` models
panic-freedom (`none` would be a panic); the `Except` is Rust's
`Result<(), MoveError>`, with the successor state in place of `()`. -/
def Game.make_move (g : Game) (row col : Nat) : Option (Except MoveError Game) :=
  if g.is_finished then
    some (.error .GameAlreadyOver)
  else if h : Tiles.rows g.tiles ≤ row ∨ Tiles.cols g.tiles ≤ col then
    some (.error (.InvalidPosition row col))
  else
    have hr : row < 3 := by simp [Tiles.rows, Tiles.cols] at h; omega
    have hc : col < 3 := by simp [Tiles.rows, Tiles.cols] at h; omega
    let r : Fin 3 := ⟨row, hr⟩
    let c : Fin 3 := ⟨col, hc⟩
    match g.tiles r c with
    | some other_piece => some (.error (.TileNotEmpty other_piece row col))
    | none =>
      let g1 : Game :=
        { tiles := placeTile g.tiles r c g.current_piece
          current_piece := g.current_piece.other
          winner := g.winner }
      (g1.update_winner r c).map .ok

/-- Rust `struct InvalidMove(pub String);` carrying the rejected text. -/
structure InvalidMove where
  token : List Char
deriving DecidableEq

/-- Number of bytes of the UTF-8 encoding of one character, as in
Rust's `char::len_utf8`. -/
def charUtf8Size (ch : Char) : Nat :=
  if ch.toNat < 0x80 then 1
  else if ch.toNat < 0x800 then 2
  else if ch.toNat < 0x10000 then 3
  else 4

/-- Rust `str::len()` of the token: its UTF-8 byte length, not its
character count. -/
def utf8ByteLength (input : List Char) : Nat :=
  (input.map charUtf8Size).sum

/-- Rust `parse_move`: maps a two-character token `1A` … `3c` to
`(row, col)`. Rust's `input.len() != 2` guard uses the byte length;
after it, the token is either two one-byte characters — the byte
slices `&input[0..1]` and `&input[1..2]` are then those characters,
and the `match` chains become character comparisons — or a single
two-byte character, for which `&input[0..1]` ends inside the character
and Rust panics with a char-boundary error: that is the `none` of the
outer `Option`. Note further that the second `match` binds `invalid`
to the one-character slice `&input[1..2]`, so that error carries only
the second character. -/
def parse_move (input : List Char) : Option (Except InvalidMove (Nat × Nat)) :=
  if utf8ByteLength input ≠ 2 then
    some (.error ⟨input⟩)
  else
    match input with
    | c1 :: c2 :: _ =>
      let row? : Option Nat :=
        if c1 = '1' then some 0
        else if c1 = '2' then some 1
        else if c1 = '3' then some 2
        else none
      match row? with
      | none => some (.error ⟨input⟩)
      | some row =>
        let col? : Option Nat :=
          if c2 = 'A' ∨ c2 = 'a' then some 0
          else if c2 = 'B' ∨ c2 = 'b' then some 1
          else if c2 = 'C' ∨ c2 = 'c' then some 2
          else none
        match col? with
        | none => some (.error ⟨[c2]⟩)
        | some col => some (.ok (row, col))
    | _ => none

/-- Runs a list of moves from a state; `some` only if every `make_move`
succeeds (no error and no panic). Models the driver loop / test usage. -/
def runMoves (g : Game) : List (Nat × Nat) → Option Game
  | [] => some g
  | (row, col) :: ms =>
    match g.make_move row col with
    | some (.ok g') => runMoves g' ms
    | _ => none

/-- Spec-side: the `Winner` value naming the given `Mark`. -/
def pieceWinner : Piece → Winner
  | .X => .X
  | .O => .O

/-- Spec-side: "a line whose three cells are all equal and non-empty
makes its common Mark the winner". -/
def specLineWinner (a b c : Tile) : Option Winner :=
  match a, b, c with
  | some p, some q, some s => if p = q ∧ q = s then some (pieceWinner p) else none
  | _, _, _ => none

/-- Spec-side: the lines through cell `(row, col)`, in the spec's fixed
order: the full row, the full column, the main diagonal only if
`row = col`, the anti-diagonal only if `row + col = 2`. -/
def linesThrough (t : Tiles) (row col : Fin 3) : List (Tile × Tile × Tile) :=
  [(t row 0, t row 1, t row 2),
   (t 0 col, t 1 col, t 2 col)] ++
  (if (row : Nat) = (col : Nat) then [(t 0 0, t 1 1, t 2 2)] else []) ++
  (if (row : Nat) + (col : Nat) = 2 then [(t 0 2, t 1 1, t 2 0)] else [])

/-- Spec-side outcome evaluation, following §4.1 steps 1–8: if the
outcome is already set it is kept; otherwise the first winning line
among the lines through the placed cell (in the fixed order) names the
winner; otherwise a full board is a tie; otherwise the outcome stays
unset. -/
def specOutcomeEval (g : Game) (row col : Fin 3) : Option Winner :=
  if g.winner.isSome then
    g.winner
  else
    match (linesThrough g.tiles row col).findSome?
        (fun l => specLineWinner l.1 l.2.1 l.2.2) with
    | some w => some w
    | none => if ∀ i j, (g.tiles i j).isSome then some .Tie else none

/-- Successor state of a successful move: piece placed, turn flipped,
winner re-evaluated. -/
def moveResult (g : Game) (r c : Fin 3) : Game :=
  let g1 : Game :=
    { tiles := placeTile g.tiles r c g.current_piece
      current_piece := g.current_piece.other
      winner := g.winner }
  { g1 with winner := specOutcomeEval g1 r c }

/-- Spec-side move-token row scheme: first character 1/2/3 maps to row
0/1/2. -/
def specRow (ch : Char) : Option Nat :=
  if ch = '1' then some 0
  else if ch = '2' then some 1
  else if ch = '3' then some 2
  else none

/-- Spec-side move-token column scheme: second character A/a, B/b, C/c
maps to column 0/1/2, case-insensitively. -/
def specCol (ch : Char) : Option Nat :=
  if ch = 'A' ∨ ch = 'a' then some 0
  else if ch = 'B' ∨ ch = 'b' then some 1
  else if ch = 'C' ∨ ch = 'c' then some 2
  else none

/-- Example mid-game position: `X` at (0,0), `O` to move, no winner. -/
def gameAfter00 : Game :=
  ⟨fun i j => if i = 0 ∧ j = 0 then some Piece.X else none, Piece.O, none⟩

/-- Scenario B, one move before the end: `X` holds the main-diagonal
corners, `O` holds (0,1) and (2,1), `X` to move. -/
def gameDiagPending : Game :=
  ⟨fun i j =>
    if (i = 0 ∧ j = 0) ∨ (i = 2 ∧ j = 2) then some Piece.X
    else if (i = 0 ∧ j = 1) ∨ (i = 2 ∧ j = 1) then some Piece.O
    else none, Piece.X, none⟩

/-- Scenario B finished: `X` completed the main diagonal and won. -/
def gameDiagWon : Game :=
  ⟨fun i j => if i = 1 ∧ j = 1 then some Piece.X else gameDiagPending.tiles i j,
   Piece.O, some Winner.X⟩

lemma check_winner_eq_spec : ∀ t : Tile × Tile × Tile,
    check_winner t = specLineWinner t.1 t.2.1 t.2.2 := by decide

lemma boardFull_iff (t : Tiles) : boardFull t = true ↔ ∀ i j, (t i j).isSome := by
  simp [boardFull, List.all_eq_true, List.mem_finRange]

lemma specLineWinner_none3 : specLineWinner none none none = none := rfl

lemma update_winner_eq_spec (g : Game) (row col : Fin 3) :
    g.update_winner row col = some { g with winner := specOutcomeEval g row col } := by
  cases hw : g.winner with
  | some w =>
    simp [Game.update_winner, specOutcomeEval, hw, Option.orElse, Tiles.rows, Tiles.cols]
  | none =>
    have hrow := row.isLt
    have hcol := col.isLt
    rcases eq_or_ne ((row : Nat)) ((col : Nat)) with hd1 | hd1
    · have hrc : row = col := Fin.ext hd1
      subst hrc
      by_cases hd2 : (row : Nat) + (row : Nat) = 2
      · have hp2 : 3 - (row : Nat) - 1 = (row : Nat) := by omega
        simp only [Game.update_winner, specOutcomeEval, linesThrough, hw, Option.isSome_none,
          Bool.false_eq_true, if_false, Tiles.rows, Tiles.cols, and_self, if_true,
          check_winner_eq_spec, hd2, hp2, ite_true, ite_false, eq_self_iff_true,
          List.append_nil, List.nil_append, List.cons_append, List.singleton_append,
          specLineWinner_none3]
        rcases hA : specLineWinner (g.tiles row 0) (g.tiles row 1) (g.tiles row 2) with _ | wA <;>
          rcases hB : specLineWinner (g.tiles 0 row) (g.tiles 1 row) (g.tiles 2 row) with _ | wB <;>
            rcases hC : specLineWinner (g.tiles 0 0) (g.tiles 1 1) (g.tiles 2 2) with _ | wC <;>
              rcases hD : specLineWinner (g.tiles 0 2) (g.tiles 1 1) (g.tiles 2 0) with _ | wD <;>
                simp [List.findSome?, hA, hB, hC, hD, Option.orElse, boardFull_iff]
      · have hnp2 : ¬ (3 - (row : Nat) - 1 = (row : Nat)) := by omega
        simp only [Game.update_winner, specOutcomeEval, linesThrough, hw, Option.isSome_none,
          Bool.false_eq_true, if_false, Tiles.rows, Tiles.cols, and_self, if_true,
          check_winner_eq_spec, hd2, hnp2, ite_true, ite_false, eq_self_iff_true,
          List.append_nil, List.nil_append, List.cons_append, List.singleton_append,
          specLineWinner_none3]
        rcases hA : specLineWinner (g.tiles row 0) (g.tiles row 1) (g.tiles row 2) with _ | wA <;>
          rcases hB : specLineWinner (g.tiles 0 row) (g.tiles 1 row) (g.tiles 2 row) with _ | wB <;>
            rcases hC : specLineWinner (g.tiles 0 0) (g.tiles 1 1) (g.tiles 2 2) with _ | wC <;>
              simp [List.findSome?, hA, hB, hC, Option.orElse, boardFull_iff, specLineWinner_none3]
    · by_cases hd2 : (row : Nat) + (col : Nat) = 2
      · have hp2 : 3 - (row : Nat) - 1 = (col : Nat) := by omega
        simp only [Game.update_winner, specOutcomeEval, linesThrough, hw, Option.isSome_none,
          Bool.false_eq_true, if_false, Tiles.rows, Tiles.cols, and_self, if_true,
          check_winner_eq_spec, hd1, hd2, hp2, ite_true, ite_false, eq_self_iff_true,
          List.append_nil, List.nil_append, List.cons_append, List.singleton_append,
          specLineWinner_none3]
        rcases hA : specLineWinner (g.tiles row 0) (g.tiles row 1) (g.tiles row 2) with _ | wA <;>
          rcases hB : specLineWinner (g.tiles 0 col) (g.tiles 1 col) (g.tiles 2 col) with _ | wB <;>
            rcases hD : specLineWinner (g.tiles 0 2) (g.tiles 1 1) (g.tiles 2 0) with _ | wD <;>
              simp [List.findSome?, hA, hB, hD, Option.orElse, boardFull_iff, specLineWinner_none3]
      · have hnp2 : ¬ (3 - (row : Nat) - 1 = (col : Nat)) := by omega
        simp only [Game.update_winner, specOutcomeEval, linesThrough, hw, Option.isSome_none,
          Bool.false_eq_true, if_false, Tiles.rows, Tiles.cols, and_self, if_true,
          check_winner_eq_spec, hd1, hd2, hnp2, ite_true, ite_false, eq_self_iff_true,
          List.append_nil, List.nil_append, List.cons_append, List.singleton_append,
          specLineWinner_none3]
        rcases hA : specLineWinner (g.tiles row 0) (g.tiles row 1) (g.tiles row 2) with _ | wA <;>
          rcases hB : specLineWinner (g.tiles 0 col) (g.tiles 1 col) (g.tiles 2 col) with _ | wB <;>
            simp [List.findSome?, hA, hB, Option.orElse, boardFull_iff, specLineWinner_none3]

lemma make_move_over_eq (g : Game) (row col : Nat) (hw : g.winner.isSome) :
    g.make_move row col = some (.error .GameAlreadyOver) := by
  simp [Game.make_move, Game.is_finished, hw]

lemma make_move_oob_eq (g : Game) (row col : Nat) (hw : g.winner = none)
    (hb : 3 ≤ row ∨ 3 ≤ col) :
    g.make_move row col = some (.error (.InvalidPosition row col)) := by
  have hb' : Tiles.rows g.tiles ≤ row ∨ Tiles.cols g.tiles ≤ col := by
    simpa [Tiles.rows, Tiles.cols] using hb
  simp only [Game.make_move, Game.is_finished, hw, Option.isSome_none, Bool.false_eq_true,
    if_false, dif_pos hb']

lemma make_move_occupied_eq (g : Game) (row col : Nat) (p : Piece) (hw : g.winner = none)
    (hr : row < 3) (hc : col < 3) (hp : g.tiles ⟨row, hr⟩ ⟨col, hc⟩ = some p) :
    g.make_move row col = some (.error (.TileNotEmpty p row col)) := by
  have hno : ¬ (Tiles.rows g.tiles ≤ row ∨ Tiles.cols g.tiles ≤ col) := by
    simp [Tiles.rows, Tiles.cols]
    omega
  simp only [Game.make_move, Game.is_finished, hw, Option.isSome_none, Bool.false_eq_true,
    if_false, dif_neg hno, hp]

lemma make_move_ok_eq (g : Game) (row col : Nat) (hw : g.winner = none)
    (hr : row < 3) (hc : col < 3) (hempty : g.tiles ⟨row, hr⟩ ⟨col, hc⟩ = none) :
    g.make_move row col = some (.ok (moveResult g ⟨row, hr⟩ ⟨col, hc⟩)) := by
  have hno : ¬ (Tiles.rows g.tiles ≤ row ∨ Tiles.cols g.tiles ≤ col) := by
    simp [Tiles.rows, Tiles.cols]
    omega
  simp only [Game.make_move, Game.is_finished, hw, Option.isSome_none, Bool.false_eq_true,
    if_false, dif_neg hno, hempty, update_winner_eq_spec, moveResult]
  rfl

lemma make_move_ok_inv (g : Game) (row col : Nat) (g' : Game)
    (h : g.make_move row col = some (.ok g')) :
    g.winner = none ∧ ∃ (hr : row < 3) (hc : col < 3),
      g.tiles ⟨row, hr⟩ ⟨col, hc⟩ = none ∧ g' = moveResult g ⟨row, hr⟩ ⟨col, hc⟩ := by
  by_cases hw : g.winner.isSome
  · rw [make_move_over_eq g row col hw] at h
    exact absurd h (by simp)
  · rw [Option.not_isSome_iff_eq_none] at hw
    by_cases hb : 3 ≤ row ∨ 3 ≤ col
    · rw [make_move_oob_eq g row col hw hb] at h
      exact absurd h (by simp)
    · push_neg at hb
      obtain ⟨hr, hc⟩ : row < 3 ∧ col < 3 := by omega
      cases hempty : g.tiles ⟨row, hr⟩ ⟨col, hc⟩ with
      | some p =>
        rw [make_move_occupied_eq g row col p hw hr hc hempty] at h
        exact absurd h (by simp)
      | none =>
        rw [make_move_ok_eq g row col hw hr hc hempty] at h
        simp only [Option.some.injEq, Except.ok.injEq] at h
        exact ⟨hw, hr, hc, hempty, h.symm⟩

lemma piece_other_other (p : Piece) : p.other.other = p := by cases p <;> rfl

lemma make_move_ok_piece (g : Game) (row col : Nat) (g' : Game)
    (h : g.make_move row col = some (.ok g')) :
    g'.current_piece = g.current_piece.other := by
  obtain ⟨-, hr, hc, -, rfl⟩ := make_move_ok_inv g row col g' h
  rfl

lemma runMoves_piece (ms : List (Nat × Nat)) :
    ∀ (g g' : Game), runMoves g ms = some g' →
      g'.current_piece = (if ms.length % 2 = 0 then g.current_piece else g.current_piece.other) := by
  induction ms with
  | nil =>
    intro g g' h
    simp only [runMoves, Option.some.injEq] at h
    subst h
    simp
  | cons m ms ih =>
    intro g g' h
    obtain ⟨row, col⟩ := m
    rcases hm : g.make_move row col with _ | e
    · simp [runMoves, hm] at h
    · cases e with
      | error err => simp [runMoves, hm] at h
      | ok g1 =>
        have h1 : runMoves g1 ms = some g' := by
          simpa [runMoves, hm] using h
        have hp1 := make_move_ok_piece g row col g1 hm
        have := ih g1 g' h1
        rcases Nat.even_or_odd ms.length with he | ho
        · have h0 : ms.length % 2 = 0 := Nat.even_iff.mp he
          have h1' : (ms.length + 1) % 2 = 1 := by omega
          simp only [List.length_cons, h0, h1', if_true, if_false] at this ⊢
          simp [this, hp1]
        · have h0 : ms.length % 2 = 1 := Nat.odd_iff.mp ho
          have h1' : (ms.length + 1) % 2 = 0 := by omega
          simp only [List.length_cons, h0, h1'] at this ⊢
          simp [this, hp1, piece_other_other]

lemma specLineWinner_some_inv : ∀ (a b c : Tile) (w : Winner),
    specLineWinner a b c = some w →
      ∃ q, w = pieceWinner q ∧ a = some q ∧ b = some q ∧ c = some q := by decide

lemma pieceWinner_ne_tie : ∀ p : Piece, pieceWinner p ≠ .Tie := by decide

lemma linesThrough_mem (t : Tiles) (r c : Fin 3) :
    ∀ l ∈ linesThrough t r c, l.1 = t r c ∨ l.2.1 = t r c ∨ l.2.2 = t r c := by
  intro l hl
  fin_cases r <;> fin_cases c <;>
    simp [linesThrough] at hl <;>
    casesm* _ ∨ _ <;> subst_vars <;> simp

lemma placeTile_self (t : Tiles) (r c : Fin 3) (p : Piece) : placeTile t r c p r c = some p := by
  simp [placeTile]

lemma pieceWinner_inj : ∀ p q : Piece, pieceWinner p = pieceWinner q → p = q := by decide

lemma specOutcomeEval_win_line (g : Game) (r c : Fin 3) (w : Winner)
    (hw : g.winner = none) (hnt : w ≠ .Tie)
    (h : specOutcomeEval g r c = some w) :
    ∃ l, l ∈ linesThrough g.tiles r c ∧ specLineWinner l.1 l.2.1 l.2.2 = some w := by
  simp only [specOutcomeEval, hw, Option.isSome_none, Bool.false_eq_true, if_false] at h
  rcases hf : (linesThrough g.tiles r c).findSome? (fun l => specLineWinner l.1 l.2.1 l.2.2)
    with _ | w'
  · rw [hf] at h
    have h' : (if ∀ i j, (g.tiles i j).isSome then (some Winner.Tie : Option Winner)
        else none) = some w := h
    by_cases hfull : ∀ i j, (g.tiles i j).isSome
    · rw [if_pos hfull] at h'
      exact absurd (Option.some.inj h').symm hnt
    · rw [if_neg hfull] at h'
      exact absurd h' (by simp)
  · rw [hf] at h
    obtain rfl : w' = w := Option.some.inj h
    exact List.exists_of_findSome?_eq_some hf

lemma moveResult_winner_piece (g : Game) (r c : Fin 3) (p : Piece)
    (hw : g.winner = none)
    (hwin : (moveResult g r c).winner = some (pieceWinner p)) :
    p = g.current_piece := by
  have hwin' : specOutcomeEval
      { tiles := placeTile g.tiles r c g.current_piece
        current_piece := g.current_piece.other
        winner := g.winner } r c = some (pieceWinner p) := hwin
  obtain ⟨l, hl, hlw⟩ :=
    specOutcomeEval_win_line
      { tiles := placeTile g.tiles r c g.current_piece
        current_piece := g.current_piece.other
        winner := g.winner } r c (pieceWinner p) hw (pieceWinner_ne_tie p) hwin'
  obtain ⟨q, hq, h1, h2, h3⟩ := specLineWinner_some_inv l.1 l.2.1 l.2.2 _ hlw
  have hqp : p = q := pieceWinner_inj p q hq
  have hgt : ({ tiles := placeTile g.tiles r c g.current_piece,
                current_piece := g.current_piece.other,
                winner := g.winner } : Game).tiles r c = some g.current_piece :=
    placeTile_self g.tiles r c g.current_piece
  rcases linesThrough_mem _ r c l hl with hx | hx | hx
  · rw [hx, hgt] at h1
    exact hqp.trans (Option.some.inj h1).symm
  · rw [hx, hgt] at h2
    exact hqp.trans (Option.some.inj h2).symm
  · rw [hx, hgt] at h3
    exact hqp.trans (Option.some.inj h3).symm

/-- C1: after every successful move at (row, col), outcome evaluation
examines exactly the lines through the just-placed cell in the fixed
order row, column, main diagonal (only if row = col), anti-diagonal
(only if row + col = 2); a line of three equal non-empty cells makes
its common mark the winner, the first such line in that order wins,
otherwise a full board is a tie, otherwise the outcome is kept. -/
theorem C1_outcome_eval_lines_through_cell (g : Game) (row col : Fin 3) :
    g.update_winner row col = some { g with winner := specOutcomeEval g row col } :=
  update_winner_eq_spec g row col

/-- C3: once the outcome is set it is permanent: any further
`make_move`, at any coordinates, returns the `GameAlreadyOver` error
and produces no successor state, so board, current mark and outcome
are unchanged. -/
theorem C3_outcome_permanent (g : Game) (row col : Nat) (hw : g.winner.isSome) :
    g.make_move row col = some (.error .GameAlreadyOver) :=
  make_move_over_eq g row col hw

/-- C3 witness -/
theorem C3_outcome_permanent_witness :
    Game.make_move ⟨fun _ _ => none, Piece.X, some Winner.X⟩ 0 0 =
      some (.error .GameAlreadyOver) :=
  C3_outcome_permanent ⟨fun _ _ => none, Piece.X, some Winner.X⟩ 0 0 (by decide)

/-- C4: from a state with no outcome, a move to an in-range empty cell
succeeds: it places the current mark there, flips the current mark,
and then evaluates the outcome on the updated board. -/
theorem C4_legal_move_places_flips_evaluates (g : Game) (row col : Nat)
    (hw : g.winner = none) (hr : row < 3) (hc : col < 3)
    (hempty : g.tiles ⟨row, hr⟩ ⟨col, hc⟩ = none) :
    ∃ g', g.make_move row col = some (.ok g') ∧
      g'.tiles ⟨row, hr⟩ ⟨col, hc⟩ = some g.current_piece ∧
      g'.current_piece = g.current_piece.other ∧
      g'.winner = specOutcomeEval
        { tiles := g'.tiles, current_piece := g'.current_piece, winner := g.winner }
        ⟨row, hr⟩ ⟨col, hc⟩ := by
  refine ⟨moveResult g ⟨row, hr⟩ ⟨col, hc⟩,
    make_move_ok_eq g row col hw hr hc hempty, ?_, rfl, rfl⟩
  exact placeTile_self g.tiles ⟨row, hr⟩ ⟨col, hc⟩ g.current_piece

/-- C4 witness -/
theorem C4_legal_move_places_flips_evaluates_witness :
    ∃ g', Game.new.make_move 0 0 = some (.ok g') ∧
      g'.tiles ⟨0, by omega⟩ ⟨0, by omega⟩ = some Game.new.current_piece ∧
      g'.current_piece = Game.new.current_piece.other ∧
      g'.winner = specOutcomeEval
        { tiles := g'.tiles, current_piece := g'.current_piece, winner := Game.new.winner }
        ⟨0, by omega⟩ ⟨0, by omega⟩ :=
  C4_legal_move_places_flips_evaluates Game.new 0 0 rfl (by omega) (by omega) rfl

/-- C6: from a state with no outcome, a move to an in-range occupied
cell returns the `TileNotEmpty` error carrying exactly the occupying
mark and the row and column that were passed in, with no successor
state (no mutation). -/
theorem C6_occupied_cell_error (g : Game) (row col : Nat) (p : Piece)
    (hw : g.winner = none) (hr : row < 3) (hc : col < 3)
    (hp : g.tiles ⟨row, hr⟩ ⟨col, hc⟩ = some p) :
    g.make_move row col = some (.error (.TileNotEmpty p row col)) :=
  make_move_occupied_eq g row col p hw hr hc hp

/-- C6 witness -/
theorem C6_occupied_cell_error_witness :
    Game.make_move
        ⟨fun i j => if i = 0 ∧ j = 0 then some Piece.X else none, Piece.O, none⟩ 0 0 =
      some (.error (.TileNotEmpty Piece.X 0 0)) :=
  C6_occupied_cell_error
    ⟨fun i j => if i = 0 ∧ j = 0 then some Piece.X else none, Piece.O, none⟩
    0 0 Piece.X rfl (by omega) (by omega) (by decide)

/-- C7: from a state with no outcome, a move with row or column
outside [0,3) returns the `InvalidPosition` error with no successor
state (no mutation). -/
theorem C7_out_of_range_error (g : Game) (row col : Nat)
    (hw : g.winner = none) (hb : 3 ≤ row ∨ 3 ≤ col) :
    g.make_move row col = some (.error (.InvalidPosition row col)) :=
  make_move_oob_eq g row col hw hb

/-- C7 witness -/
theorem C7_out_of_range_error_witness :
    Game.new.make_move 5 0 = some (.error (.InvalidPosition 5 0)) :=
  C7_out_of_range_error Game.new 5 0 rfl (by omega)

/-- C8: `make_move` never panics: for every state and coordinates it
returns a value (the panic-modelling `none` is impossible, so the 3×3
dimension assertion always holds), and that value is success or one of
the three distinguishable errors. -/
theorem C8_no_panic_total (g : Game) (row col : Nat) :
    ∃ res, g.make_move row col = some res ∧
      (res = .error .GameAlreadyOver ∨ res = .error (.InvalidPosition row col) ∨
       (∃ p, res = .error (.TileNotEmpty p row col)) ∨ (∃ g', res = .ok g')) := by
  by_cases hw : g.winner.isSome
  · exact ⟨_, make_move_over_eq g row col hw, .inl rfl⟩
  · rw [Option.not_isSome_iff_eq_none] at hw
    by_cases hb : 3 ≤ row ∨ 3 ≤ col
    · exact ⟨_, make_move_oob_eq g row col hw hb, .inr (.inl rfl)⟩
    · push_neg at hb
      obtain ⟨hr, hc⟩ : row < 3 ∧ col < 3 := by omega
      cases hp : g.tiles ⟨row, hr⟩ ⟨col, hc⟩ with
      | some p =>
        exact ⟨_, make_move_occupied_eq g row col p hw hr hc hp, .inr (.inr (.inl ⟨p, rfl⟩))⟩
      | none =>
        exact ⟨_, make_move_ok_eq g row col hw hr hc hp, .inr (.inr (.inr ⟨_, rfl⟩))⟩

/-- C10: after every successful move, including one that sets the
outcome, the current mark is the opposite of the mark just placed; in
particular when the move wins the game, the recorded winner names the
placed mark and the current-mark query returns the loser. -/
theorem C10_current_piece_flips_even_on_win (g : Game) (row col : Nat) (g' : Game) (p : Piece)
    (h : g.make_move row col = some (.ok g')) :
    g'.current_piece = g.current_piece.other ∧
    (g'.winner = some (pieceWinner p) → p = g.current_piece ∧ g'.current_piece = p.other) := by
  refine ⟨make_move_ok_piece g row col g' h, ?_⟩
  intro hwin
  obtain ⟨hw, hr, hc, hempty, rfl⟩ := make_move_ok_inv g row col g' h
  have hp : p = g.current_piece :=
    moveResult_winner_piece g ⟨row, hr⟩ ⟨col, hc⟩ p hw hwin
  exact ⟨hp, by rw [hp]; rfl⟩

lemma specOutcomeEval_no_win (g : Game) (r c : Fin 3) (hw : g.winner = none)
    (hnw : (linesThrough g.tiles r c).findSome?
      (fun l => specLineWinner l.1 l.2.1 l.2.2) = none) :
    specOutcomeEval g r c =
      (if ∀ i j, (g.tiles i j).isSome then some Winner.Tie else none) := by
  simp only [specOutcomeEval, hw, Option.isSome_none, Bool.false_eq_true, if_false, hnw]

/-- C2: after a successful move, if no winning line through the placed
cell is found, then a fully occupied board makes the outcome Tie, and
a board with an empty cell leaves the outcome unset. -/
theorem C2_full_board_tie_else_continue (g g' : Game) (row col : Nat)
    (hr : row < 3) (hc : col < 3)
    (hok : g.make_move row col = some (.ok g'))
    (hnowin : (linesThrough g'.tiles ⟨row, hr⟩ ⟨col, hc⟩).findSome?
      (fun l => specLineWinner l.1 l.2.1 l.2.2) = none) :
    ((∀ i j, (g'.tiles i j).isSome) → g'.winner = some .Tie) ∧
    ((¬ ∀ i j, (g'.tiles i j).isSome) → g'.winner = none) := by
  obtain ⟨hw, hr', hc', hempty, rfl⟩ := make_move_ok_inv g row col g' hok
  have key : (moveResult g ⟨row, hr'⟩ ⟨col, hc'⟩).winner =
      (if ∀ i j, ((moveResult g ⟨row, hr'⟩ ⟨col, hc'⟩).tiles i j).isSome
        then some Winner.Tie else none) :=
    specOutcomeEval_no_win
      { tiles := placeTile g.tiles ⟨row, hr'⟩ ⟨col, hc'⟩ g.current_piece,
        current_piece := g.current_piece.other,
        winner := g.winner } ⟨row, hr'⟩ ⟨col, hc'⟩ hw hnowin
  constructor
  · intro hfull
    rw [key, if_pos hfull]
  · intro hfull
    rw [key, if_neg hfull]

/-- C2 witness -/
theorem C2_full_board_tie_else_continue_witness :
    ((∀ i j, (gameAfter00.tiles i j).isSome) → gameAfter00.winner = some .Tie) ∧
    ((¬ ∀ i j, (gameAfter00.tiles i j).isSome) → gameAfter00.winner = none) :=
  C2_full_board_tie_else_continue Game.new gameAfter00 0 0 (by omega) (by omega)
    (by decide) (by decide)

/-- C5: a freshly constructed game has an empty board, `X` (First) to
move, and no outcome; and along every successful move sequence the
mark to move alternates strictly, starting with `X`. -/
theorem C5_fresh_state_and_alternation :
    Game.new.tiles = (fun _ _ => none) ∧
    Game.new.current_piece = Piece.X ∧
    Game.new.winner = none ∧
    ∀ (moves : List (Nat × Nat)) (g' : Game), runMoves Game.new moves = some g' →
      g'.current_piece = (if moves.length % 2 = 0 then Piece.X else Piece.O) := by
  refine ⟨rfl, rfl, rfl, ?_⟩
  intro moves g' h
  have hp := runMoves_piece moves Game.new g' h
  by_cases he : moves.length % 2 = 0
  · simpa [he, Game.new] using hp
  · simpa [he, Game.new, Piece.other] using hp

/-- C5 witness -/
theorem C5_fresh_state_and_alternation_witness :
    ∃ g', runMoves Game.new [(0, 0), (1, 1)] = some g' ∧
      g'.current_piece =
        (if ([((0 : Nat), (0 : Nat)), (1, 1)].length % 2 = 0) then Piece.X else Piece.O) := by
  rcases h : runMoves Game.new [(0, 0), (1, 1)] with _ | g'
  · exact absurd h (by decide)
  · exact ⟨g', rfl, C5_fresh_state_and_alternation.2.2.2 [(0, 0), (1, 1)] g' h⟩

/-- C9 counterexample: on the two-character token `1D` (valid row
character, invalid column character) `parse_move` reports only the
second character `D`, not the original token `1D` as the claim states;
and on the two-byte token `é` — byte length exactly 2, so it passes
the length guard — `parse_move` panics at the byte slice `&input[0..1]`
(the `none` result) instead of returning any error at all. -/
theorem C9_counterexample_second_char_only :
    parse_move ['1', 'D'] = some (.error ⟨['D']⟩) ∧
      (⟨['D']⟩ : InvalidMove) ≠ ⟨['1', 'D']⟩ ∧
      parse_move ['é'] = none := by
  decide

/-- C9 amended: `parse_move` maps tokens `1`..`3` times `A`/`a`,
`B`/`b`, `C`/`c` to (row 0/1/2, col 0/1/2); a token whose byte length
is not 2 is rejected with the original token; a token of byte length 2
that is a single two-byte character makes the parser panic (byte
slicing off a character boundary), returning nothing; otherwise the
token is two one-byte characters, and an invalid first character is
rejected with the original token while a valid first character with an
invalid second character is rejected with an error carrying only the
second character. -/
theorem C9_parse_move_amended (input : List Char) (c1 c2 : Char) :
    (utf8ByteLength input ≠ 2 → parse_move input = some (.error ⟨input⟩)) ∧
    (input = [c1] → charUtf8Size c1 = 2 → parse_move input = none) ∧
    (input = [c1, c2] → utf8ByteLength input = 2 →
      parse_move input =
        some (match specRow c1 with
          | none => .error ⟨input⟩
          | some row =>
            match specCol c2 with
            | none => .error ⟨[c2]⟩
            | some col => .ok (row, col))) := by
  refine ⟨?_, ?_, ?_⟩
  · intro h
    simp [parse_move, h]
  · rintro rfl hsz
    simp [parse_move, utf8ByteLength, hsz]
  · rintro rfl hlen
    simp only [parse_move, specRow, specCol, hlen, ne_eq]
    norm_num
    split_ifs <;> rfl

/-- C9 witness -/
theorem C9_parse_move_amended_witness : parse_move ['2', 'b'] = some (.ok (1, 1)) := by
  have h := (C9_parse_move_amended ['2', 'b'] '2' 'b').2.2 rfl (by decide)
  simpa [specRow, specCol] using h

/-- C10 witness -/
theorem C10_current_piece_flips_even_on_win_witness :
    gameDiagWon.current_piece = gameDiagPending.current_piece.other ∧
    (gameDiagWon.winner = some (pieceWinner Piece.X) →
      Piece.X = gameDiagPending.current_piece ∧
      gameDiagWon.current_piece = Piece.X.other) :=
  C10_current_piece_flips_even_on_win gameDiagPending 1 1 gameDiagWon Piece.X (by decide)


end ConnectRusty
